import Mathlib

/-!
Verification development for the relay's validator registry and payload
cache.  The registry (`BeaconClientValidatorService`, `FetchValidators`,
`IsValidator`, `NumValidators`, `fetchBeacon`, `fetchAllValidators`) is a
shallow embedding of the Go code in the `server` package.  The network is
modelled by passing the outcome of the HTTP interaction (`BeaconOutcome`)
as an explicit argument; JSON syntax parsing of the response body is
modelled by passing its result (`Except String Json`) alongside the raw
text, and the mapping of parsed JSON into Go structs (`encoding/json`
field semantics: case-insensitive key match, later duplicate keys win,
`null` is a no-op, unknown fields ignored, type mismatch is an error) is
embedded by the `unmarshal…` functions below.
-/

namespace Relay

/-- A parsed JSON value.  Numbers are modelled as integers, which covers
every number the embedded code inspects (the beacon error `code`). -/
inductive Json where
  | null
  | bool (b : Bool)
  | num (n : Int)
  | str (s : String)
  | arr (elems : List Json)
  | obj (fields : List (String × Json))

/-- The inner `Validator` struct of `validatorResponseEntry`, holding the
`pubkey` json field. -/
structure validatorInner where
  pubkey : String
deriving DecidableEq, Repr

/-- Go struct `validatorResponseEntry`: `Validator struct { Pubkey string }`. -/
structure validatorResponseEntry where
  validator : validatorInner
deriving DecidableEq, Repr

/-- Go struct `allValidatorsResponse`: `Data []validatorResponseEntry`. -/
structure allValidatorsResponse where
  data : List validatorResponseEntry
deriving DecidableEq, Repr

/-- Go struct for beacon error bodies: `Code int`, `Message string` with
json tags `code` and `message`. -/
structure beaconErrorResponse where
  code : Int
  message : String
deriving DecidableEq, Repr

/-- Go `strings.ToLower`, embedded character-wise over the string's
characters (`Char.toLower`; every string the code lower-cases is ASCII
hex, where the two agree). -/
def strToLower (s : String) : String :=
  ⟨s.data.map Char.toLower⟩

/-- encoding/json matches object keys to struct fields case-insensitively. -/
def keyMatches (jsonKey fieldTag : String) : Bool :=
  strToLower jsonKey == strToLower fieldTag

/-- One field of an error-response object, decoded into the accumulator
struct: a `null` value is a no-op, a wrong type is an error, unknown keys
are ignored. -/
def applyBeaconErrorField (acc : beaconErrorResponse) (kv : String × Json) :
    Except String beaconErrorResponse :=
  if keyMatches kv.1 "code" then
    match kv.2 with
    | Json.num n => Except.ok { acc with code := n }
    | Json.null => Except.ok acc
    | _ => Except.error "json: cannot unmarshal value into field code of type int"
  else if keyMatches kv.1 "message" then
    match kv.2 with
    | Json.str s => Except.ok { acc with message := s }
    | Json.null => Except.ok acc
    | _ => Except.error "json: cannot unmarshal value into field message of type string"
  else
    Except.ok acc

/-- `json.Unmarshal` of a parsed body into the beacon error struct. -/
def unmarshalBeaconErrorInto (acc : beaconErrorResponse) (j : Json) :
    Except String beaconErrorResponse :=
  match j with
  | Json.null => Except.ok acc
  | Json.obj fields => List.foldlM applyBeaconErrorField acc fields
  | _ => Except.error "json: cannot unmarshal value into Go struct of type beacon error"

/-- One field of a `validator` object decoded into `validatorInner`. -/
def applyValidatorInnerField (acc : validatorInner) (kv : String × Json) :
    Except String validatorInner :=
  if keyMatches kv.1 "pubkey" then
    match kv.2 with
    | Json.str s => Except.ok { acc with pubkey := s }
    | Json.null => Except.ok acc
    | _ => Except.error "json: cannot unmarshal value into field pubkey of type string"
  else
    Except.ok acc

/-- `json.Unmarshal` of a parsed value into the inner `Validator` struct. -/
def unmarshalValidatorInnerInto (acc : validatorInner) (j : Json) :
    Except String validatorInner :=
  match j with
  | Json.null => Except.ok acc
  | Json.obj fields => List.foldlM applyValidatorInnerField acc fields
  | _ => Except.error "json: cannot unmarshal value into Go struct of type validatorInner"

/-- One field of an entry object decoded into `validatorResponseEntry`. -/
def applyEntryField (acc : validatorResponseEntry) (kv : String × Json) :
    Except String validatorResponseEntry :=
  if keyMatches kv.1 "validator" then
    (unmarshalValidatorInnerInto acc.validator kv.2).map (fun v => { acc with validator := v })
  else
    Except.ok acc

/-- `json.Unmarshal` of a parsed value into `validatorResponseEntry`. -/
def unmarshalEntryInto (acc : validatorResponseEntry) (j : Json) :
    Except String validatorResponseEntry :=
  match j with
  | Json.null => Except.ok acc
  | Json.obj fields => List.foldlM applyEntryField acc fields
  | _ => Except.error "json: cannot unmarshal value into Go struct of type validatorResponseEntry"

/-- One field of the top-level response object decoded into
`allValidatorsResponse`: the untagged Go field `Data` matches json key
`data` case-insensitively; a JSON array value replaces the slice, each
element decoded into a fresh zero entry; `null` is a no-op. -/
def applyAllValidatorsField (acc : allValidatorsResponse) (kv : String × Json) :
    Except String allValidatorsResponse :=
  if keyMatches kv.1 "data" then
    match kv.2 with
    | Json.null => Except.ok acc
    | Json.arr elems =>
        (elems.mapM (unmarshalEntryInto { validator := { pubkey := "" } })).map
          (fun l => { acc with data := l })
    | _ => Except.error "json: cannot unmarshal value into field Data of slice type"
  else
    Except.ok acc

/-- `json.Unmarshal` of a parsed body into `allValidatorsResponse`. -/
def unmarshalAllValidatorsInto (acc : allValidatorsResponse) (j : Json) :
    Except String allValidatorsResponse :=
  match j with
  | Json.null => Except.ok acc
  | Json.obj fields => List.foldlM applyAllValidatorsField acc fields
  | _ => Except.error "json: cannot unmarshal value into Go struct of type allValidatorsResponse"

/-- The outcome of the HTTP interaction performed by `fetchBeacon`:
building the request, executing it or reading its body may fail, or a
response arrives with a status code and a body.  `parsed` is the result
of JSON syntax parsing of `rawBody` (parsing validity does not depend on
the destination type, so it is a single oracle input). -/
inductive BeaconOutcome where
  | requestError (msg : String)
  | clientError (msg : String)
  | readError (msg : String)
  | response (statusCode : Nat) (rawBody : String) (parsed : Except String Json)

/-- Embedding of `fetchBeacon(url, method, dst)` specialised to the one
destination type the code uses.  A status `≥ 300` routes the body through
the beacon error struct and surfaces exactly its `message`; otherwise the
body is decoded into `allValidatorsResponse`. -/
def fetchBeacon (url : String) (out : BeaconOutcome) : Except String allValidatorsResponse :=
  match out with
  | BeaconOutcome.requestError msg =>
      Except.error ("invalid reqest for " ++ url ++ ": " ++ msg)
  | BeaconOutcome.clientError msg =>
      Except.error ("client refused for " ++ url ++ ": " ++ msg)
  | BeaconOutcome.readError msg =>
      Except.error ("could not read response body for " ++ url ++ ": " ++ msg)
  | BeaconOutcome.response statusCode rawBody parsed =>
      if statusCode ≥ 300 then
        match parsed with
        | Except.error msg =>
            Except.error ("could not unmarshal error response from beacon node for "
              ++ url ++ " from " ++ rawBody ++ ": " ++ msg)
        | Except.ok j =>
            match unmarshalBeaconErrorInto { code := 0, message := "" } j with
            | Except.error msg =>
                Except.error ("could not unmarshal error response from beacon node for "
                  ++ url ++ " from " ++ rawBody ++ ": " ++ msg)
            | Except.ok ec => Except.error ec.message
      else
        match parsed with
        | Except.error msg =>
            Except.error ("could not unmarshal response for " ++ url ++ " from "
              ++ rawBody ++ ": " ++ msg)
        | Except.ok j =>
            match unmarshalAllValidatorsInto { data := [] } j with
            | Except.error msg =>
                Except.error ("could not unmarshal response for " ++ url ++ " from "
                  ++ rawBody ++ ": " ++ msg)
            | Except.ok vd => Except.ok vd

/-- Embedding of `fetchAllValidators(endpoint)`: builds the beacon API uri
and delegates to `fetchBeacon`. -/
def fetchAllValidators (endpoint : String) (out : BeaconOutcome) :
    Except String allValidatorsResponse :=
  fetchBeacon (endpoint ++ "/eth/v1/beacon/states/head/validators?status=active,pending") out

/-- The registry state: `beaconEndpoint` plus the Go map
`validatorSet map[string]validatorResponseEntry`, modelled as an
association list whose keys stay pairwise distinct because every update
goes through `mapInsert`. -/
structure BeaconClientValidatorService where
  beaconEndpoint : String
  validatorSet : List (String × validatorResponseEntry)
deriving DecidableEq, Repr

/-- Go map assignment `m[k] = v`: overwrite the entry when the key is
present, append it otherwise. -/
def mapInsert (m : List (String × validatorResponseEntry)) (k : String)
    (v : validatorResponseEntry) : List (String × validatorResponseEntry) :=
  if m.any (fun e => e.1 == k) then
    m.map (fun e => if e.1 == k then (k, v) else e)
  else
    m ++ [(k, v)]

/-- `NewBeaconClientValidatorService`: fresh service with an empty map. -/
def NewBeaconClientValidatorService (beaconEndpoint : String) : BeaconClientValidatorService :=
  { beaconEndpoint := beaconEndpoint, validatorSet := [] }

/-- `IsValidator`: lower-case the pubkey and test map membership. -/
def IsValidator (b : BeaconClientValidatorService) (pubkey : String) : Bool :=
  b.validatorSet.any (fun e => e.1 == strToLower pubkey)

/-- `NumValidators`: `uint64(len(b.validatorSet))`. -/
def NumValidators (b : BeaconClientValidatorService) : Nat :=
  b.validatorSet.length

/-- `FetchValidators`: fetch, and on success build a brand-new map keyed
by lower-cased pubkey and swap it in; on failure return the error with
the state untouched.  The returned pair is (state after the call, error). -/
def FetchValidators (b : BeaconClientValidatorService) (out : BeaconOutcome) :
    BeaconClientValidatorService × Option String :=
  match fetchAllValidators b.beaconEndpoint out with
  | Except.error e => (b, some e)
  | Except.ok vd =>
      let newValidatorSet := vd.data.foldl
        (fun m vs => mapInsert m (strToLower vs.validator.pubkey) vs) []
      ({ b with validatorSet := newValidatorSet }, none)

/-- Modelled from the spec: the protocol-fork variants a payload may carry
(the Memcached payload cache implementation `datastore/memcached.go` is not
part of the provided sources, only its integration test; §4.1 requires the
payload "to be validated as belonging to a known protocol-fork variant"). -/
inductive Fork where
  | bellatrix
  | capella
  | deneb
deriving DecidableEq, Repr

/-- Modelled from the spec: an "opaque, fork-versioned execution payload
blob" — a fork variant when one is recognized (`none` models a payload
with no recognized fork variant) and an opaque body, `""` modelling the
empty body. -/
structure VersionedPayload where
  fork : Option Fork
  body : String
deriving DecidableEq, Repr

/-- Modelled from the spec: a valid payload belongs to a known
protocol-fork variant and carries a non-empty body (§4.1). -/
def validPayload (p : VersionedPayload) : Bool :=
  p.fork.isSome && !(p.body == "")

/-- Modelled from the spec: the error taxonomy of §7 relevant to the
payload cache. -/
inductive CacheError where
  | invalidInput
  | storeUnavailable
  | decodeError
deriving DecidableEq, Repr

/-- Modelled from the spec: the state of the Expiring Key-Value Store —
for each key at most one fully-written value together with its absolute
expiry instant (write instant plus TTL, not sliding).  Time is an
explicit `Nat` instant passed to each operation. -/
structure KVStore where
  entries : List (String × (Fork × String) × Nat)
deriving DecidableEq, Repr

/-- Modelled from the spec: `set(key, value, ttl)` at instant `now` —
unconditional overwrite, the value retrievable until `now + ttl`. -/
def kvSet (s : KVStore) (key : String) (value : Fork × String) (ttl now : Nat) : KVStore :=
  { entries := (key, value, now + ttl) :: s.entries.filter (fun e => !(e.1 == key)) }

/-- Modelled from the spec: `get(key)` at instant `now` — the stored value
while its expiry instant has not been reached, absent otherwise. -/
def kvGet (s : KVStore) (key : String) (now : Nat) : Option (Fork × String) :=
  match s.entries.find? (fun e => e.1 == key) with
  | some (_, v, expiresAt) => if now < expiresAt then some v else none
  | none => none

/-- Modelled from the spec: key construction — "a deterministic string
built from a fixed namespace plus the decimal slot, the lower-cased hex
proposer pubkey, and the lower-cased hex block hash" (§4.1). -/
def payloadKey (cacheNs : String) (slot : Nat) (proposerPubkey blockHash : String) : String :=
  cacheNs ++ "/" ++ toString slot ++ "/" ++ strToLower proposerPubkey ++ "/" ++ strToLower blockHash

/-- Modelled from the spec: `Save` — reject a payload with no recognized
fork variant or an empty body with an invalid-payload error before any
store write; otherwise serialize it (fork tag plus body) and write it
under the derived key with a fixed TTL measured from the write instant.
An error result means the store was not written. -/
def SaveExecutionPayload (store : KVStore) (cacheNs : String) (ttl now slot : Nat)
    (proposerPubkey blockHash : String) (payload : VersionedPayload) :
    Except CacheError KVStore :=
  match payload.fork with
  | none => Except.error CacheError.invalidInput
  | some f =>
      if payload.body == "" then Except.error CacheError.invalidInput
      else Except.ok (kvSet store (payloadKey cacheNs slot proposerPubkey blockHash)
        (f, payload.body) ttl now)

/-- Modelled from the spec: the store state the caller holds after a
`Save` attempt — the new store on success, the previous store untouched
on failure. -/
def storeAfterSave (store : KVStore) (cacheNs : String) (ttl now slot : Nat)
    (proposerPubkey blockHash : String) (payload : VersionedPayload) : KVStore :=
  match SaveExecutionPayload store cacheNs ttl now slot proposerPubkey blockHash payload with
  | Except.ok s => s
  | Except.error _ => store

/-- Modelled from the spec: `Get` — an explicit absent result (not an
error) when the key was never written or its TTL has elapsed, otherwise
the deserialized fork-tagged payload. -/
def GetExecutionPayload (store : KVStore) (cacheNs : String) (now slot : Nat)
    (proposerPubkey blockHash : String) : Except CacheError (Option VersionedPayload) :=
  match kvGet store (payloadKey cacheNs slot proposerPubkey blockHash) now with
  | none => Except.ok none
  | some (f, b) => Except.ok (some { fork := some f, body := b })

/-- The spec's concrete registry scenario response body, parsed:
`data` holding one entry whose `validator.pubkey` is `"0xAB"`. -/
def sampleValidatorsJson : Json :=
  Json.obj [("data", Json.arr [Json.obj [("validator", Json.obj [("pubkey", Json.str "0xAB")])]])]

/-- The registry state after refreshing a fresh service from a success
response carrying `sampleValidatorsJson`. -/
def sampleRegistryAfterRefresh : BeaconClientValidatorService :=
  (FetchValidators (NewBeaconClientValidatorService "http://beacon")
    (BeaconOutcome.response 200 "raw" (Except.ok sampleValidatorsJson))).1

/-- A registry state with one installed entry, used to exercise the
failure-preservation and wholesale-replacement behaviour on a non-empty
prior mapping. -/
def sampleNonemptyRegistry : BeaconClientValidatorService :=
  { beaconEndpoint := "http://b",
    validatorSet := [("0xab", { validator := { pubkey := "0xab" } })] }

/- ------------------------------------------------------------------ -/
/- Helper lemmas                                                       -/
/- ------------------------------------------------------------------ -/

theorem list_any_congr {α : Type} {p q : α → Bool} :
    ∀ (l : List α), (∀ a ∈ l, p a = q a) → l.any p = l.any q
  | [], _ => rfl
  | a :: t, h => by
      simp only [List.any_cons, h a (List.mem_cons_self a t),
        list_any_congr t (fun x hx => h x (List.mem_cons_of_mem a hx))]

/-- Key membership after a Go map assignment: the new key set is the old
one plus the assigned key. -/
theorem any_key_mapInsert (m : List (String × validatorResponseEntry)) (k : String)
    (v : validatorResponseEntry) (q : String) :
    ((mapInsert m k v).any fun e => e.1 == q) =
      ((m.any fun e => e.1 == q) || (k == q)) := by
  unfold mapInsert
  by_cases h : (m.any fun e => e.1 == k) = true
  · simp only [h, if_true, List.any_map]
    have hcong : (m.any ((fun e : String × validatorResponseEntry => e.1 == q) ∘
        (fun e => if e.1 == k then (k, v) else e))) = (m.any fun e => e.1 == q) := by
      apply list_any_congr
      intro a _
      by_cases ha : a.1 = k
      · simp [Function.comp, ha]
      · simp [Function.comp, ha]
    rw [hcong]
    by_cases hkq : k = q
    · subst hkq
      rw [List.any_eq_true] at h
      obtain ⟨x, hx, hxk⟩ := h
      have : (m.any fun e => e.1 == k) = true := List.any_eq_true.2 ⟨x, hx, hxk⟩
      simp [this]
    · simp [hkq]
  · simp only [Bool.not_eq_true] at h
    simp [h, List.any_append]

/-- Key membership of the map `FetchValidators` builds by folding
`mapInsert` over the fetched entries. -/
theorem any_key_foldl (l : List validatorResponseEntry)
    (m0 : List (String × validatorResponseEntry)) (q : String) :
    ((l.foldl (fun m vs => mapInsert m (strToLower vs.validator.pubkey) vs) m0).any
        fun e => e.1 == q) =
      ((m0.any fun e => e.1 == q) || (l.any fun vs => strToLower vs.validator.pubkey == q)) := by
  induction l generalizing m0 with
  | nil => simp
  | cons a t ih =>
      simp only [List.foldl_cons, List.any_cons, ih, any_key_mapInsert, Bool.or_assoc]

/-- Decoding an object none of whose keys matches the `Data` field leaves
the accumulator struct untouched and succeeds. -/
theorem foldlM_no_data_fields (fields : List (String × Json)) (acc : allValidatorsResponse)
    (h : ∀ kv ∈ fields, keyMatches kv.1 "data" = false) :
    List.foldlM applyAllValidatorsField acc fields = Except.ok acc := by
  induction fields generalizing acc with
  | nil => rfl
  | cons kv t ih =>
      have hkv := h kv (List.mem_cons_self kv t)
      rw [List.foldlM_cons]
      have happ : applyAllValidatorsField acc kv = Except.ok acc := by
        unfold applyAllValidatorsField
        simp [hkv]
      rw [happ]
      show List.foldlM applyAllValidatorsField acc t = Except.ok acc
      exact ih acc (fun x hx => h x (List.mem_cons_of_mem kv hx))

/-- A success-status response whose parsed body decodes into `vd` makes
`fetchBeacon` return `vd`. -/
theorem fetchBeacon_success (url : String) (status : Nat) (rawBody : String)
    (j : Json) (vd : allValidatorsResponse)
    (hstatus : status < 300)
    (hun : unmarshalAllValidatorsInto { data := [] } j = Except.ok vd) :
    fetchBeacon url (BeaconOutcome.response status rawBody (Except.ok j)) = Except.ok vd := by
  simp only [fetchBeacon]
  rw [if_neg (Nat.not_le.mpr hstatus), hun]

/- ------------------------------------------------------------------ -/
/- Claim theorems                                                      -/
/- ------------------------------------------------------------------ -/

/-- Claim C9: on a freshly constructed registry, before any successful
refresh, `IsValidator` returns false for every pubkey and
`NumValidators` returns 0. -/
theorem fresh_registry_empty (endpoint p : String) :
    IsValidator (NewBeaconClientValidatorService endpoint) p = false ∧
      NumValidators (NewBeaconClientValidatorService endpoint) = 0 :=
  ⟨rfl, rfl⟩

/-- Claim C1: whenever the fetch fails (network error, non-success
response or undecodable body all surface as `Except.error` from
`fetchAllValidators`), `FetchValidators` returns that error and leaves
the state exactly as it was, so every subsequent `IsValidator` and
`NumValidators` result equals its value before the failed call. -/
theorem fetchValidators_failure_preserves_state (b : BeaconClientValidatorService)
    (out : BeaconOutcome) (e : String)
    (h : fetchAllValidators b.beaconEndpoint out = Except.error e) :
    FetchValidators b out = (b, some e) ∧
      (∀ p, IsValidator (FetchValidators b out).1 p = IsValidator b p) ∧
      NumValidators (FetchValidators b out).1 = NumValidators b := by
  have hfv : FetchValidators b out = (b, some e) := by
    unfold FetchValidators
    rw [h]
  exact ⟨hfv, fun p => by rw [hfv], by rw [hfv]⟩

/-- Witness for C1 at a concrete failing fetch (client connection error)
against a non-empty registry. -/
theorem fetchValidators_failure_preserves_state_witness :
    FetchValidators sampleNonemptyRegistry (BeaconOutcome.clientError "connection refused") =
        (sampleNonemptyRegistry, some ("client refused for http://b/eth/v1/beacon/states/head/validators?status=active,pending: connection refused")) ∧
      (∀ p, IsValidator (FetchValidators sampleNonemptyRegistry
          (BeaconOutcome.clientError "connection refused")).1 p =
        IsValidator sampleNonemptyRegistry p) ∧
      NumValidators (FetchValidators sampleNonemptyRegistry
          (BeaconOutcome.clientError "connection refused")).1 =
        NumValidators sampleNonemptyRegistry :=
  fetchValidators_failure_preserves_state sampleNonemptyRegistry
    (BeaconOutcome.clientError "connection refused") _ rfl

/-- Claim C2: after a successful refresh from a fetched and parsed
response `R`, the installed mapping is exactly the one built from `R`
with lower-cased pubkeys: `IsValidator p` holds iff the lower-casing of
`p` occurs among the lower-cased pubkeys of `R`, and every entry
registered before the refresh but absent from `R` is no longer
registered. -/
theorem fetchValidators_success_installs_fetched_mapping
    (b : BeaconClientValidatorService) (out : BeaconOutcome) (R : allValidatorsResponse)
    (h : fetchAllValidators b.beaconEndpoint out = Except.ok R) :
    (FetchValidators b out).2 = none ∧
    (∀ p : String, IsValidator (FetchValidators b out).1 p = true ↔
        strToLower p ∈ R.data.map (fun vs => strToLower vs.validator.pubkey)) ∧
    (∀ p : String, IsValidator b p = true →
        strToLower p ∉ R.data.map (fun vs => strToLower vs.validator.pubkey) →
        IsValidator (FetchValidators b out).1 p = false) := by
  have hfv : FetchValidators b out =
      ({ b with validatorSet := (R.data.foldl
          (fun m vs => mapInsert m (strToLower vs.validator.pubkey) vs) []) }, none) := by
    unfold FetchValidators
    rw [h]
  have hmem : ∀ p : String, IsValidator (FetchValidators b out).1 p = true ↔
      strToLower p ∈ R.data.map (fun vs => strToLower vs.validator.pubkey) := by
    intro p
    rw [hfv]
    show ((R.data.foldl (fun m vs => mapInsert m (strToLower vs.validator.pubkey) vs) []).any
        fun e => e.1 == strToLower p) = true ↔
      strToLower p ∈ R.data.map (fun vs => strToLower vs.validator.pubkey)
    rw [any_key_foldl]
    simp only [List.any_nil, Bool.false_or, List.any_eq_true, beq_iff_eq, List.mem_map]
  refine ⟨by rw [hfv], hmem, fun p _ habs => ?_⟩
  cases h' : IsValidator (FetchValidators b out).1 p with
  | false => rfl
  | true => exact absurd ((hmem p).1 h') habs

/-- Witness for C2: refreshing the non-empty sample registry from a
success response carrying one validator with pubkey `"0xAB"` registers
exactly its lower-casing. -/
theorem fetchValidators_success_installs_fetched_mapping_witness :
    IsValidator (FetchValidators sampleNonemptyRegistry
        (BeaconOutcome.response 200 "raw" (Except.ok sampleValidatorsJson))).1 "0xab" = true ↔
      strToLower "0xab" ∈
        (({ data := [{ validator := { pubkey := "0xAB" } }] } : allValidatorsResponse).data.map
          (fun vs => strToLower vs.validator.pubkey)) :=
  (fetchValidators_success_installs_fetched_mapping sampleNonemptyRegistry
    (BeaconOutcome.response 200 "raw" (Except.ok sampleValidatorsJson))
    { data := [{ validator := { pubkey := "0xAB" } }] } rfl).2.1 "0xab"

/-- Claim C10: a success-status response whose body is valid JSON but has
no `data` field (for example the empty object) makes `FetchValidators`
report success and install the empty mapping, so every previously
registered validator becomes unregistered and `NumValidators` is 0. -/
theorem fetchValidators_missing_data_installs_empty
    (b : BeaconClientValidatorService) (status : Nat) (rawBody : String)
    (fields : List (String × Json))
    (hstatus : status < 300)
    (hnodata : ∀ kv ∈ fields, keyMatches kv.1 "data" = false) :
    FetchValidators b (BeaconOutcome.response status rawBody (Except.ok (Json.obj fields))) =
        ({ b with validatorSet := [] }, none) ∧
      NumValidators (FetchValidators b
          (BeaconOutcome.response status rawBody (Except.ok (Json.obj fields)))).1 = 0 ∧
      ∀ p, IsValidator (FetchValidators b
          (BeaconOutcome.response status rawBody (Except.ok (Json.obj fields)))).1 p = false := by
  have hfetch : fetchAllValidators b.beaconEndpoint
      (BeaconOutcome.response status rawBody (Except.ok (Json.obj fields))) =
        Except.ok { data := [] } :=
    fetchBeacon_success _ status rawBody _ _ hstatus
      (foldlM_no_data_fields fields { data := [] } hnodata)
  have hfv : FetchValidators b
      (BeaconOutcome.response status rawBody (Except.ok (Json.obj fields))) =
        ({ b with validatorSet := [] }, none) := by
    unfold FetchValidators
    rw [hfetch]
    rfl
  exact ⟨hfv, by rw [hfv]; rfl, fun p => by rw [hfv]; rfl⟩

/-- Witness for C10: refreshing the non-empty sample registry from a 200
response whose body is the empty JSON object wipes the mapping and
reports success. -/
theorem fetchValidators_missing_data_installs_empty_witness :
    FetchValidators sampleNonemptyRegistry
        (BeaconOutcome.response 200 "raw" (Except.ok (Json.obj []))) =
      ({ sampleNonemptyRegistry with validatorSet := [] }, none) :=
  (fetchValidators_missing_data_installs_empty sampleNonemptyRegistry 200 "raw" []
    (by decide) (fun kv hkv => absurd hkv (List.not_mem_nil kv))).1

/-- Claim C6: `IsValidator` returns the same boolean for any two pubkey
strings with the same lower-casing (hence for every casing of a pubkey),
and in the concrete scenario of a refresh from
`data:[validator:pubkey "0xAB"]`, `IsValidator "0xab"` is true,
`NumValidators` is 1 and `IsValidator "0xCD"` is false. -/
theorem isValidator_case_insensitive_and_scenario :
    (∀ (b : BeaconClientValidatorService) (p q : String),
        strToLower p = strToLower q → IsValidator b p = IsValidator b q) ∧
    IsValidator sampleRegistryAfterRefresh "0xab" = true ∧
    NumValidators sampleRegistryAfterRefresh = 1 ∧
    IsValidator sampleRegistryAfterRefresh "0xCD" = false := by
  refine ⟨fun b p q h => ?_, by decide, by decide, by decide⟩
  unfold IsValidator
  rw [h]

/-- Witness for C6: the case-insensitivity part applied at two concrete
casings of the sample pubkey. -/
theorem isValidator_case_insensitive_and_scenario_witness :
    IsValidator sampleRegistryAfterRefresh "0xAB" =
      IsValidator sampleRegistryAfterRefresh "0xab" :=
  isValidator_case_insensitive_and_scenario.1 sampleRegistryAfterRefresh "0xAB" "0xab" (by decide)

/-- Claim C8: for a response with status at least 300 whose body parses
into the structured error shape, `fetchBeacon` returns an error whose
text is exactly the `message` field; consequently `FetchValidators`
surfaces exactly that text. -/
theorem fetchBeacon_bad_status_surfaces_message (url : String) (status : Nat)
    (rawBody : String) (j : Json) (ec : beaconErrorResponse)
    (hstatus : 300 ≤ status)
    (hparse : unmarshalBeaconErrorInto { code := 0, message := "" } j = Except.ok ec) :
    fetchBeacon url (BeaconOutcome.response status rawBody (Except.ok j)) =
        Except.error ec.message ∧
      ∀ b : BeaconClientValidatorService,
        FetchValidators b (BeaconOutcome.response status rawBody (Except.ok j)) =
          (b, some ec.message) := by
  have key : ∀ u : String,
      fetchBeacon u (BeaconOutcome.response status rawBody (Except.ok j)) =
        Except.error ec.message := by
    intro u
    simp only [fetchBeacon]
    rw [if_pos hstatus, hparse]
  refine ⟨key url, fun b => ?_⟩
  unfold FetchValidators fetchAllValidators
  rw [key]

/-- Witness for C8 at a concrete 404 response whose body is the object
with `code` 404 and `message` "not found". -/
theorem fetchBeacon_bad_status_surfaces_message_witness :
    fetchBeacon "http://b" (BeaconOutcome.response 404 "raw"
        (Except.ok (Json.obj [("code", Json.num 404), ("message", Json.str "not found")]))) =
        Except.error "not found" ∧
      ∀ b : BeaconClientValidatorService,
        FetchValidators b (BeaconOutcome.response 404 "raw"
            (Except.ok (Json.obj [("code", Json.num 404), ("message", Json.str "not found")]))) =
          (b, some "not found") :=
  fetchBeacon_bad_status_surfaces_message "http://b" 404 "raw"
    (Json.obj [("code", Json.num 404), ("message", Json.str "not found")])
    { code := 404, message := "not found" } (by decide) rfl

/-- Reading back the key just written: the value while the expiry instant
has not been reached, absent afterwards. -/
theorem kvGet_kvSet_same (s : KVStore) (k : String) (v : Fork × String) (ttl now now' : Nat) :
    kvGet (kvSet s k v ttl now) k now' = if now' < now + ttl then some v else none := by
  unfold kvGet kvSet
  rw [List.find?_cons_of_pos _ (by simp)]

/-- Claim C3: for every valid payload and key triple, `Save` then `Get`
with no intervening expiry succeeds and returns a payload observably
equal to the one saved — serialization followed by deserialization
through the cache is the identity on valid payloads. -/
theorem save_then_get_roundtrip (store : KVStore) (cacheNs : String)
    (ttl now now' slot : Nat) (proposerPubkey blockHash : String) (P : VersionedPayload)
    (hvalid : validPayload P = true) (hfresh : now' < now + ttl) :
    ∃ store', SaveExecutionPayload store cacheNs ttl now slot proposerPubkey blockHash P =
        Except.ok store' ∧
      GetExecutionPayload store' cacheNs now' slot proposerPubkey blockHash =
        Except.ok (some P) := by
  obtain ⟨Pf, Pb⟩ := P
  cases Pf with
  | none => simp [validPayload] at hvalid
  | some f =>
      have hbody : (Pb == "") = false := by
        cases hb : (Pb == "") with
        | false => rfl
        | true => simp [validPayload, hb] at hvalid
      refine ⟨kvSet store (payloadKey cacheNs slot proposerPubkey blockHash) (f, Pb) ttl now,
        ?_, ?_⟩
      · unfold SaveExecutionPayload
        simp [hbody]
      · unfold GetExecutionPayload
        rw [kvGet_kvSet_same, if_pos hfresh]

/-- Witness for C3 at a concrete valid payload and key triple. -/
theorem save_then_get_roundtrip_witness :
    validPayload { fork := some Fork.capella, body := "blob" } = true ∧
      (10 : Nat) < 0 + 45 ∧
      ∃ store', SaveExecutionPayload { entries := [] } "test" 45 0 1 "0xAA" "0x09"
          { fork := some Fork.capella, body := "blob" } = Except.ok store' ∧
        GetExecutionPayload store' "test" 10 1 "0xAA" "0x09" =
          Except.ok (some { fork := some Fork.capella, body := "blob" }) :=
  ⟨by decide, by decide,
    save_then_get_roundtrip { entries := [] } "test" 45 0 10 1 "0xAA" "0x09"
      { fork := some Fork.capella, body := "blob" } (by decide) (by decide)⟩

/-- Claim C4: a payload with no recognized fork variant or an empty body
makes `Save` fail with the invalid-payload error before any store write,
and a subsequent `Get` on the same key triple still returns absent with
no error. -/
theorem save_invalid_payload_no_write (store : KVStore) (cacheNs : String)
    (ttl now now' slot : Nat) (proposerPubkey blockHash : String) (P : VersionedPayload)
    (hinvalid : validPayload P = false) :
    SaveExecutionPayload store cacheNs ttl now slot proposerPubkey blockHash P =
        Except.error CacheError.invalidInput ∧
      storeAfterSave store cacheNs ttl now slot proposerPubkey blockHash P = store ∧
      (GetExecutionPayload store cacheNs now' slot proposerPubkey blockHash =
          Except.ok none →
        GetExecutionPayload (storeAfterSave store cacheNs ttl now slot proposerPubkey
            blockHash P) cacheNs now' slot proposerPubkey blockHash = Except.ok none) := by
  have hsave : SaveExecutionPayload store cacheNs ttl now slot proposerPubkey blockHash P =
      Except.error CacheError.invalidInput := by
    obtain ⟨Pf, Pb⟩ := P
    cases Pf with
    | none => rfl
    | some f =>
        have hb : (Pb == "") = true := by
          cases hb : (Pb == "") with
          | true => rfl
          | false => simp [validPayload, hb] at hinvalid
        unfold SaveExecutionPayload
        simp [hb]
  have hafter : storeAfterSave store cacheNs ttl now slot proposerPubkey blockHash P =
      store := by
    unfold storeAfterSave
    rw [hsave]
  exact ⟨hsave, hafter, fun hget => by rw [hafter]; exact hget⟩

/-- Witness for C4: a payload with no recognized fork variant, saved
against an empty store, yields the invalid-input error and the key stays
absent. -/
theorem save_invalid_payload_no_write_witness :
    SaveExecutionPayload { entries := [] } "test" 45 0 1 "0xAA" "0x09"
        { fork := none, body := "blob" } = Except.error CacheError.invalidInput ∧
      storeAfterSave { entries := [] } "test" 45 0 1 "0xAA" "0x09"
        { fork := none, body := "blob" } = { entries := [] } ∧
      (GetExecutionPayload { entries := [] } "test" 10 1 "0xAA" "0x09" = Except.ok none →
        GetExecutionPayload (storeAfterSave { entries := [] } "test" 45 0 1 "0xAA" "0x09"
          { fork := none, body := "blob" }) "test" 10 1 "0xAA" "0x09" = Except.ok none) :=
  save_invalid_payload_no_write { entries := [] } "test" 45 0 10 1 "0xAA" "0x09"
    { fork := none, body := "blob" } (by decide)

/-- Claim C5: sequential `Save(K, P1)` then `Save(K, P2)` leaves `Get(K)`
returning P2 only; the second save unconditionally overwrites the
existing entry with no compare-and-swap, versioning or stale-write
rejection, and P1 is no longer reachable through K. -/
theorem save_overwrites_existing_key (store : KVStore) (cacheNs : String)
    (ttl t1 t2 t3 slot : Nat) (proposerPubkey blockHash : String) (P1 P2 : VersionedPayload)
    (h1 : validPayload P1 = true) (h2 : validPayload P2 = true)
    (hfresh : t3 < t2 + ttl) :
    ∃ s1 s2, SaveExecutionPayload store cacheNs ttl t1 slot proposerPubkey blockHash P1 =
        Except.ok s1 ∧
      SaveExecutionPayload s1 cacheNs ttl t2 slot proposerPubkey blockHash P2 =
        Except.ok s2 ∧
      GetExecutionPayload s2 cacheNs t3 slot proposerPubkey blockHash =
        Except.ok (some P2) ∧
      (P1 ≠ P2 →
        GetExecutionPayload s2 cacheNs t3 slot proposerPubkey blockHash ≠
          Except.ok (some P1)) := by
  obtain ⟨Pf1, Pb1⟩ := P1
  obtain ⟨Pf2, Pb2⟩ := P2
  cases Pf1 with
  | none => simp [validPayload] at h1
  | some f1 =>
    cases Pf2 with
    | none => simp [validPayload] at h2
    | some f2 =>
      have hb1 : (Pb1 == "") = false := by
        cases hb : (Pb1 == "") with
        | false => rfl
        | true => simp [validPayload, hb] at h1
      have hb2 : (Pb2 == "") = false := by
        cases hb : (Pb2 == "") with
        | false => rfl
        | true => simp [validPayload, hb] at h2
      refine ⟨kvSet store (payloadKey cacheNs slot proposerPubkey blockHash) (f1, Pb1) ttl t1,
        kvSet (kvSet store (payloadKey cacheNs slot proposerPubkey blockHash) (f1, Pb1) ttl t1)
          (payloadKey cacheNs slot proposerPubkey blockHash) (f2, Pb2) ttl t2,
        ?_, ?_, ?_, ?_⟩
      · unfold SaveExecutionPayload
        simp [hb1]
      · unfold SaveExecutionPayload
        simp [hb2]
      · unfold GetExecutionPayload
        rw [kvGet_kvSet_same, if_pos hfresh]
      · intro hne hget
        unfold GetExecutionPayload at hget
        rw [kvGet_kvSet_same, if_pos hfresh] at hget
        simp only [Except.ok.injEq, Option.some.injEq, VersionedPayload.mk.injEq] at hget
        obtain ⟨hf, hb⟩ := hget
        subst hf
        subst hb
        exact hne rfl

/-- Witness for C5 at two distinct concrete payloads written to the same
key triple. -/
theorem save_overwrites_existing_key_witness :
    ∃ s1 s2, SaveExecutionPayload { entries := [] } "test" 45 0 1 "0xAA" "0x09"
        { fork := some Fork.bellatrix, body := "first" } = Except.ok s1 ∧
      SaveExecutionPayload s1 "test" 45 1 1 "0xAA" "0x09"
        { fork := some Fork.bellatrix, body := "second" } = Except.ok s2 ∧
      GetExecutionPayload s2 "test" 2 1 "0xAA" "0x09" =
        Except.ok (some { fork := some Fork.bellatrix, body := "second" }) ∧
      ({ fork := some Fork.bellatrix, body := "first" } ≠
          ({ fork := some Fork.bellatrix, body := "second" } : VersionedPayload) →
        GetExecutionPayload s2 "test" 2 1 "0xAA" "0x09" ≠
          Except.ok (some { fork := some Fork.bellatrix, body := "first" })) :=
  save_overwrites_existing_key { entries := [] } "test" 45 0 1 2 1 "0xAA" "0x09"
    { fork := some Fork.bellatrix, body := "first" }
    { fork := some Fork.bellatrix, body := "second" } (by decide) (by decide) (by decide)

/-- Claim C7: once the configured TTL has elapsed after a save with no
intervening write to the key, `Get` returns the explicit absent result
with no error — the same observable result as on a store where the key
was never written. -/
theorem get_after_ttl_elapsed_absent (store : KVStore) (cacheNs : String)
    (ttl now now' slot : Nat) (proposerPubkey blockHash : String) (P : VersionedPayload)
    (hvalid : validPayload P = true) (helapsed : now + ttl ≤ now') :
    ∃ store', SaveExecutionPayload store cacheNs ttl now slot proposerPubkey blockHash P =
        Except.ok store' ∧
      GetExecutionPayload store' cacheNs now' slot proposerPubkey blockHash =
        Except.ok none ∧
      GetExecutionPayload { entries := [] } cacheNs now' slot proposerPubkey blockHash =
        Except.ok none := by
  obtain ⟨Pf, Pb⟩ := P
  cases Pf with
  | none => simp [validPayload] at hvalid
  | some f =>
      have hbody : (Pb == "") = false := by
        cases hb : (Pb == "") with
        | false => rfl
        | true => simp [validPayload, hb] at hvalid
      refine ⟨kvSet store (payloadKey cacheNs slot proposerPubkey blockHash) (f, Pb) ttl now,
        ?_, ?_, rfl⟩
      · unfold SaveExecutionPayload
        simp [hbody]
      · unfold GetExecutionPayload
        rw [kvGet_kvSet_same, if_neg (Nat.not_lt.mpr helapsed)]

/-- Witness for C7: a concrete save whose TTL has elapsed by the read
instant. -/
theorem get_after_ttl_elapsed_absent_witness :
    validPayload { fork := some Fork.capella, body := "blob" } = true ∧
      (0 : Nat) + 45 ≤ 60 ∧
      ∃ store', SaveExecutionPayload { entries := [] } "test" 45 0 1 "0xAA" "0x09"
          { fork := some Fork.capella, body := "blob" } = Except.ok store' ∧
        GetExecutionPayload store' "test" 60 1 "0xAA" "0x09" = Except.ok none ∧
        GetExecutionPayload { entries := [] } "test" 60 1 "0xAA" "0x09" = Except.ok none :=
  ⟨by decide, by decide,
    get_after_ttl_elapsed_absent { entries := [] } "test" 45 0 60 1 "0xAA" "0x09"
      { fork := some Fork.capella, body := "blob" } (by decide) (by decide)⟩

end Relay
